import Mathlib

/-!
Verification development for the Comicks single-file comic-page editor
(`src/app.js`).  The JavaScript program is shallowly embedded: JS numbers
are modelled as rationals extended with `NaN` and the two infinities, JS
values (as producible by `JSON.parse` plus the runtime's `undefined`) as an
inductive type, and every stateful handler as a pure function from the old
state to the new one.  The random id generator `uid()` is modelled as an
explicit supply of identifier strings threaded through the functions that
call it.
-/

namespace Comicks

/-- JS number: a rational value, `NaN`, or one of the two infinities.
Rationals stand in for IEEE-754 doubles; none of the verified code paths
depend on rounding, only on ordering, `+`/`-`, `Math.min`/`Math.max`. -/
inductive JNum where
  | nan
  | inf
  | ninf
  | val (q : ℚ)
deriving DecidableEq, Repr

/-- Math.min: `NaN` absorbs, otherwise the usual order with infinities. -/
def jmin : JNum → JNum → JNum
  | .nan, _ => .nan
  | _, .nan => .nan
  | .ninf, _ => .ninf
  | _, .ninf => .ninf
  | .inf, b => b
  | a, .inf => a
  | .val a, .val b => .val (min a b)

/-- Math.max: `NaN` absorbs, otherwise the usual order with infinities. -/
def jmax : JNum → JNum → JNum
  | .nan, _ => .nan
  | _, .nan => .nan
  | .inf, _ => .inf
  | _, .inf => .inf
  | .ninf, b => b
  | a, .ninf => a
  | .val a, .val b => .val (max a b)

/-- JS numeric addition (`+` on two numbers): `NaN` absorbs, opposite
infinities give `NaN`. -/
def jaddN : JNum → JNum → JNum
  | .nan, _ => .nan
  | _, .nan => .nan
  | .inf, .ninf => .nan
  | .ninf, .inf => .nan
  | .inf, _ => .inf
  | _, .inf => .inf
  | .ninf, _ => .ninf
  | _, .ninf => .ninf
  | .val a, .val b => .val (a + b)

/-- Negation of a JS number. -/
def jnegN : JNum → JNum
  | .nan => .nan
  | .inf => .ninf
  | .ninf => .inf
  | .val q => .val (-q)

/-- JS numeric subtraction (`-` operator after `ToNumber`). -/
def jsubN (a b : JNum) : JNum := jaddN a (jnegN b)

/-- `src/app.js` line 5: `const clamp = (v, a, b) => Math.max(a, Math.min(b, v));` -/
def clamp (v a b : JNum) : JNum := jmax a (jmin b v)

/-- JS value as produced by `JSON.parse`, extended with `undefined` (the
result of reading an absent property).  Object fields keep their textual
order; duplicate keys behave as in `JSON.parse` (the last occurrence wins,
see `jget`). -/
inductive JSVal where
  | null
  | undefined
  | bool (b : Bool)
  | num (n : JNum)
  | str (s : String)
  | arr (xs : List JSVal)
  | obj (fields : List (String × JSVal))
deriving Repr

/-- JS truthiness: `false`, `0`, `-0`, `NaN`, `""`, `null`, `undefined`
are falsy; every other value (including any object or array) is truthy. -/
def truthy : JSVal → Bool
  | .null => false
  | .undefined => false
  | .bool b => b
  | .num .nan => false
  | .num (.val q) => q ≠ 0
  | .num _ => true
  | .str s => s ≠ ""
  | .arr _ => true
  | .obj _ => true

/-- A value is nullish (`null` or `undefined`); the `??` operator tests this. -/
def nullish : JSVal → Bool
  | .null => true
  | .undefined => true
  | _ => false

/-- `Array.isArray`. -/
def isArr : JSVal → Bool
  | .arr _ => true
  | _ => false

/-- Strict equality of a JS value against a string literal (`v === "s"`). -/
def isStrEq : JSVal → String → Bool
  | .str s, t => s = t
  | _, _ => false

/-- Strict-equality membership of a value in a list of string literals,
as used by `['speech','caption','sfx'].includes(el.subtype)`. -/
def strIncludes (options : List String) : JSVal → Bool
  | .str s => options.contains s
  | _ => false

/-- Property read `v[k]` for the property names the program uses.  On an
object it is the last binding of the key (matching `JSON.parse`'s
duplicate-key behaviour), or `undefined` when absent; on any non-nullish
non-object value it is `undefined` (none of the keys the program reads —
`panels`, `layout`, `id`, `bg`, `elements`, `type`, `src`, `subtype`,
`text`, `x`, `y`, `w`, `h`, `fontSize`, `color`, `rotate`, `z`, `align`,
`radius`, `weight` — exists on the primitive or `Array` prototypes).
Reading a property of `null`/`undefined` throws; callers model that with
`nullish` checks before using `jget`. -/
def jget (v : JSVal) (k : String) : JSVal :=
  match v with
  | .obj fields =>
      match (fields.filter (fun f => f.1 = k)).getLast? with
      | some f => f.2
      | none => .undefined
  | _ => .undefined

/-- The `??` operator: the left value unless it is nullish. -/
def jcoalesce (v d : JSVal) : JSVal := if nullish v then d else v

/-- The `||` operator: the left value unless it is falsy. -/
def jor (v d : JSVal) : JSVal := if truthy v then v else d

/-- Decimal rendering of an integer. -/
def intToString (i : ℤ) : String :=
  if i < 0 then "-" ++ Nat.repr i.natAbs else Nat.repr i.natAbs

/-- JS `String(n)` on a number.  Exact for integers and the special
values; for non-integral rationals we print `num/den` as a stand-in for
IEEE-754 shortest-round-trip formatting (no verified claim depends on the
non-integral case). -/
def numToString : JNum → String
  | .nan => "NaN"
  | .inf => "Infinity"
  | .ninf => "-Infinity"
  | .val q =>
      if q.den = 1 then intToString q.num
      else intToString q.num ++ "/" ++ Nat.repr q.den

mutual

/-- JS `String(v)` / `ToString` for the values `JSON.parse` can produce:
arrays render by `Array.prototype.join` (elements joined with `","`,
nullish elements as the empty string), plain objects as
`"[object Object]"`. -/
def jsToString : JSVal → String
  | .null => "null"
  | .undefined => "undefined"
  | .bool b => if b then "true" else "false"
  | .num n => numToString n
  | .str s => s
  | .arr xs => String.intercalate "," (jsToStringJoin xs)
  | .obj _ => "[object Object]"

/-- Elements of an array as rendered by `Array.prototype.join`. -/
def jsToStringJoin : List JSVal → List String
  | [] => []
  | .null :: rest => "" :: jsToStringJoin rest
  | .undefined :: rest => "" :: jsToStringJoin rest
  | v :: rest => jsToString v :: jsToStringJoin rest

end

/-- Character is an ASCII decimal digit. -/
def isDigitCh (c : Char) : Bool := 48 ≤ c.toNat ∧ c.toNat ≤ 57

/-- Value of a digit string. -/
def digitsToNat (cs : List Char) : ℕ :=
  cs.foldl (fun a c => a * 10 + (c.toNat - 48)) 0

/-- All characters are digits. -/
def allDigits (cs : List Char) : Bool := cs.all isDigitCh

/-- Split a character list at the first separator, if any. -/
def splitAtChar (sep : Char → Bool) : List Char → List Char × Option (List Char)
  | [] => ([], none)
  | c :: rest =>
      if sep c then ([], some rest)
      else
        let p := splitAtChar sep rest
        (c :: p.1, p.2)

/-- JS whitespace (the characters `ToNumber` string trimming strips; the
common ASCII subset). -/
def isWsCh (c : Char) : Bool := c = ' ' ∨ c = '\t' ∨ c = '\n' ∨ c = '\r'

/-- Whitespace trimming (JS `StringToNumber` discards leading and trailing
whitespace). -/
def jsTrim (s : String) : String :=
  ⟨((s.data.dropWhile isWsCh).reverse.dropWhile isWsCh).reverse⟩

/-- JS `ToNumber` on a string: trimmed empty string is `0`, optional sign,
`Infinity`, or a decimal literal with optional fraction and exponent;
anything else is `NaN`.  (Hex/octal/binary literal forms are not modelled;
no verified claim exercises them.) -/
def strToNum (s : String) : JNum :=
  let t := jsTrim s
  if t = "" then .val 0
  else
    let cs := t.data
    let sgn : Bool × List Char :=
      match cs with
      | '-' :: r => (true, r)
      | '+' :: r => (false, r)
      | r => (false, r)
    let neg := sgn.1
    let body := sgn.2
    if body = "Infinity".data then (if neg then .ninf else .inf)
    else
      let me := splitAtChar (fun c => c = 'e' ∨ c = 'E') body
      let ifp := splitAtChar (fun c => c = '.') me.1
      let ip := ifp.1
      let fp := (ifp.2).getD []
      if ¬ (allDigits ip ∧ allDigits fp) ∨ (ip.isEmpty ∧ fp.isEmpty) then .nan
      else
        match me.2 with
        | none =>
            if fp.isEmpty then
              -- pure integer literal: avoid rational arithmetic
              .val (if neg then -(digitsToNat ip : ℚ) else (digitsToNat ip : ℚ))
            else
              let mant : ℚ :=
                (digitsToNat ip : ℚ) + (digitsToNat fp : ℚ) / (10 : ℚ) ^ fp.length
              .val (if neg then -mant else mant)
        | some ec =>
            let mant : ℚ :=
              (digitsToNat ip : ℚ) + (digitsToNat fp : ℚ) / (10 : ℚ) ^ fp.length
            let esgn : Bool × List Char :=
              match ec with
              | '-' :: r => (true, r)
              | '+' :: r => (false, r)
              | r => (false, r)
            if esgn.2.isEmpty ∨ ¬ allDigits esgn.2 then .nan
            else
              let e : ℤ :=
                if esgn.1 then -(digitsToNat esgn.2 : ℤ) else (digitsToNat esgn.2 : ℤ)
              .val (if neg then -(mant * (10 : ℚ) ^ e) else mant * (10 : ℚ) ^ e)

/-- JS `ToNumber`: `null → 0`, `undefined → NaN`, booleans to `0`/`1`,
strings by the numeric-literal grammar, arrays via their join string
(`ToPrimitive`), plain objects (`"[object Object]"`) to `NaN`. -/
def toNumber : JSVal → JNum
  | .null => .val 0
  | .undefined => .nan
  | .bool b => .val (if b then 1 else 0)
  | .num n => n
  | .str s => strToNum s
  | .arr xs => strToNum (jsToString (.arr xs))
  | .obj _ => .nan

/-- JS `ToPropertyKey` restricted to non-symbol values: the `ToString`
image. -/
def toPropertyKey (v : JSVal) : String := jsToString v

/-- JS `+` operator on two values: if either primitive is a string the
result is string concatenation, otherwise numeric addition.  The only
non-primitive operands the program can meet here are arrays and plain
objects, whose `ToPrimitive` is their `ToString`. -/
def jsAdd (a b : JSVal) : JSVal :=
  let prim : JSVal → JSVal := fun v =>
    match v with
    | .arr xs => .str (jsToString (.arr xs))
    | .obj fs => .str (jsToString (.obj fs))
    | p => p
  match prim a, prim b with
  | .str sa, pb => .str (sa ++ jsToString pb)
  | pa, .str sb => .str (jsToString pa ++ sb)
  | pa, pb => .num (jaddN (toNumber pa) (toNumber pb))

/-- JS `String.prototype.slice(0, n)` on our string model (Lean characters
stand in for UTF-16 code units; the claims only use code-unit-safe text). -/
def strTake (s : String) (n : ℕ) : String := ⟨s.data.take n⟩

/-! ## Layout presets (`LAYOUTS`, src/app.js lines 9-14) -/

/-- The own property names of the `LAYOUTS` object literal. -/
def layoutKeys : List String := ["1", "2h", "2v", "4"]

/-- Panel count of each layout preset (`LAYOUTS[k].panels`). -/
def layoutPanelCount (k : String) : Option ℕ :=
  if k = "1" then some 1
  else if k = "2h" then some 2
  else if k = "2v" then some 2
  else if k = "4" then some 4
  else none

/-- Property names `LAYOUTS` inherits from `Object.prototype`; the JS `in`
operator used at src/app.js line 152 also finds these. -/
def objectProtoKeys : List String :=
  ["constructor", "hasOwnProperty", "isPrototypeOf", "propertyIsEnumerable",
   "toLocaleString", "toString", "valueOf", "__proto__", "__defineGetter__",
   "__defineSetter__", "__lookupGetter__", "__lookupSetter__"]

/-- The JS test `k in LAYOUTS`: own keys or inherited prototype keys. -/
def inLayoutsObj (k : String) : Bool :=
  layoutKeys.contains k ∨ objectProtoKeys.contains k

/-! ## Document model (src/app.js lines 16-50) -/

/-- A text element, the shape built by `defaultText` / the text branch of
`sanitizeElement`.  Fields that the program only ever fills with clamped
numbers are `JNum`; fields the sanitizer passes through verbatim
(`color`, `bg`, `rotate`, `z`) are raw JS values. -/
structure TextEl where
  id : String
  subtype : String
  text : String
  x : JNum
  y : JNum
  w : JNum
  h : JNum
  fontSize : JNum
  color : JSVal
  bg : JSVal
  rotate : JSVal
  z : JSVal
  align : String
  radius : JNum
  weight : JNum
deriving Repr

/-- An image element, the shape built by `defaultImage` / the image branch
of `sanitizeElement`. -/
structure ImageEl where
  id : String
  src : JSVal
  x : JNum
  y : JNum
  w : JNum
  h : JNum
  z : JSVal
  rotate : JSVal
deriving Repr

/-- An element is a text callout or an image (`type` tag in the JS). -/
inductive Element where
  | text (t : TextEl)
  | image (i : ImageEl)
deriving Repr

/-- The element's `id` field. -/
def Element.idOf : Element → String
  | .text t => t.id
  | .image i => i.id

/-- Replace the element's `id` field, keeping everything else. -/
def Element.setId : Element → String → Element
  | .text t, i => .text { t with id := i }
  | .image m, i => .image { m with id := i }

/-- A panel: `{ id, bg, elements }`.  A panel loaded from JSON keeps any
truthy `id`/`bg` value verbatim, so those fields are raw JS values. -/
structure Panel where
  id : JSVal
  bg : JSVal
  elements : List Element
deriving Repr

/-- The document (`page` state): `{ layout, panels }`.  `loadJSON` keeps
the raw `layout` value when the `in` test succeeds, so `layout` is a raw
JS value. -/
structure Page where
  layout : JSVal
  panels : List Panel
deriving Repr

/-- Supply of identifiers modelling `uid()` (src/app.js line 6): an
environment-chosen stream of strings consumed in call order. -/
structure Supply where
  ids : ℕ → String
  next : ℕ

/-- Draw the next id from the supply. -/
def Supply.fresh (s : Supply) : String × Supply :=
  (s.ids s.next, ⟨s.ids, s.next + 1⟩)

/-- `defaultText(subtype)` (src/app.js lines 25-39), with the `uid()` call
made explicit as the `id` argument.  (Line 32 writes
`subtype === 'caption' ? '#111827' : '#111827'`, i.e. the colour is
`'#111827'` for every subtype.) -/
def defaultText (id subtype : String) : TextEl where
  id := id
  subtype := subtype
  text :=
    if subtype = "sfx" then "BAM!"
    else if subtype = "caption" then "Caption..." else "Speech..."
  x := .val 24
  y := .val 24
  w := .val 200
  h := .val 80
  fontSize := if subtype = "sfx" then .val 36 else .val 20
  color := .str "#111827"
  bg := if subtype = "caption" then .str "#fef3c7" else .str "#ffffffcc"
  rotate := .num (.val 0)
  z := .num (.val 1)
  align := "left"
  radius := if subtype = "speech" then .val 16 else .val 8
  weight := if subtype = "sfx" then .val 800 else .val 600

/-- `defaultImage(src, natural)` (src/app.js lines 41-50): width/height
are `Math.min(300, natural?.width || 300)` / `Math.min(220,
natural?.height || 220)`; `natural` is `none` when the probe failed. -/
def defaultImage (id : String) (src : JSVal) (natural : Option (JSVal × JSVal)) :
    ImageEl where
  id := id
  src := src
  x := .val 24
  y := .val 24
  w := jmin (.val 300)
        (toNumber (jor (match natural with | none => .undefined | some n => n.1)
          (.num (.val 300))))
  h := jmin (.val 220)
        (toNumber (jor (match natural with | none => .undefined | some n => n.2)
          (.num (.val 220))))
  z := .num (.val 0)
  rotate := .num (.val 0)

/-- A freshly constructed empty white panel, as built by `DEFAULT_PAGE`
and by the layout-sync effect. -/
def freshPanel (id : String) : Panel :=
  { id := .str id, bg := .str "#ffffff", elements := [] }

/-- Build `n` fresh empty panels, consuming ids in order. -/
def emptyPanels (s : Supply) : ℕ → List Panel × Supply
  | 0 => ([], s)
  | n + 1 =>
      let f := s.fresh
      let r := emptyPanels f.2 n
      (freshPanel f.1 :: r.1, r.2)

/-- `DEFAULT_PAGE()` (src/app.js lines 16-23): layout `'4'`, four fresh
empty white panels. -/
def DEFAULT_PAGE (s : Supply) : Page × Supply :=
  let r := emptyPanels s 4
  ({ layout := .str "4", panels := r.1 }, r.2)

/-! ## Sanitizer (`sanitizeElement`, src/app.js lines 166-196) -/

/-- Numeric-field sanitation: `clamp(el[k] ?? dflt, lo, hi)` (the `clamp`
arguments pass through `Math.min`/`Math.max`, which apply `ToNumber`). -/
def sanNum (el : JSVal) (k : String) (dflt lo hi : ℚ) : JNum :=
  clamp (toNumber (jcoalesce (jget el k) (.num (.val dflt)))) (.val lo) (.val hi)

/-- `['speech','caption','sfx'].includes(el.subtype) ? el.subtype : 'speech'`. -/
def subtypeOf (v : JSVal) : String :=
  match v with
  | .str s => if s = "speech" ∨ s = "caption" ∨ s = "sfx" then s else "speech"
  | _ => "speech"

/-- `['left','center','right'].includes(el.align) ? el.align : 'left'`. -/
def alignOf (v : JSVal) : String :=
  match v with
  | .str s => if s = "left" ∨ s = "center" ∨ s = "right" then s else "left"
  | _ => "left"

/-- `sanitizeElement(el)` (src/app.js lines 166-196).  Reading `el.type`
on a nullish value throws (modelled as `.error`); otherwise the element is
rebuilt over a `defaultImage`/`defaultText` spread, which regenerates the
`id` via `uid()` — every other field of the spread is overridden by the
explicit properties.  Returns the element together with the advanced id
supply. -/
def sanitizeElement (s : Supply) (el : JSVal) : Except Unit (Element × Supply) :=
  if nullish el then .error ()
  else
    let f := s.fresh
    if isStrEq (jget el "type") "image" then
      .ok (.image
        { id := f.1
          src := jor (jget el "src") (.str "")
          x := sanNum el "x" 24 0 10000
          y := sanNum el "y" 24 0 10000
          w := sanNum el "w" 300 10 10000
          h := sanNum el "h" 220 10 10000
          z := jcoalesce (jget el "z") (.num (.val 0))
          rotate := jcoalesce (jget el "rotate") (.num (.val 0)) }, f.2)
    else
      let subtype := subtypeOf (jget el "subtype")
      .ok (.text
        { id := f.1
          subtype := subtype
          text := strTake (jsToString (jcoalesce (jget el "text") (.str ""))) 2000
          x := sanNum el "x" 24 0 10000
          y := sanNum el "y" 24 0 10000
          w := sanNum el "w" 200 40 10000
          h := sanNum el "h" 80 30 10000
          fontSize := sanNum el "fontSize" 20 8 160
          color := jor (jget el "color") (.str "#111827")
          bg := jor (jget el "bg")
            (if subtype = "caption" then .str "#fef3c7" else .str "#ffffffcc")
          rotate := jcoalesce (jget el "rotate") (.num (.val 0))
          z := jcoalesce (jget el "z") (.num (.val 1))
          align := alignOf (jget el "align")
          radius := sanNum el "radius" (if subtype = "speech" then 16 else 8) 0 64
          weight := sanNum el "weight" (if subtype = "sfx" then 800 else 600) 100 900 },
        f.2)

/-- Sanitize a list of elements left to right
(`p.elements.map(sanitizeElement)`), threading the id supply; a thrown
error aborts the whole load. -/
def sanitizeElems (s : Supply) : List JSVal → Except Unit (List Element × Supply)
  | [] => .ok ([], s)
  | e :: rest =>
      match sanitizeElement s e with
      | .error u => .error u
      | .ok r =>
          match sanitizeElems r.2 rest with
          | .error u => .error u
          | .ok r2 => .ok (r.1 :: r2.1, r2.2)

/-- One panel of the loaded document (src/app.js lines 153-157): reading
`p.id` on a nullish entry throws; `p.id || uid()` draws a fresh id only
when `p.id` is falsy; `bg` defaults to white; `elements` is sanitized when
it is an array and replaced by `[]` otherwise. -/
def sanitizePanel (s : Supply) (p : JSVal) : Except Unit (Panel × Supply) :=
  if nullish p then .error ()
  else
    let idv := jget p "id"
    let idr : JSVal × Supply :=
      if truthy idv then (idv, s)
      else
        let f := s.fresh
        (.str f.1, f.2)
    let bg := jor (jget p "bg") (.str "#ffffff")
    match jget p "elements" with
    | .arr es =>
        match sanitizeElems idr.2 es with
        | .error u => .error u
        | .ok r => .ok ({ id := idr.1, bg := bg, elements := r.1 }, r.2)
    | _ => .ok ({ id := idr.1, bg := bg, elements := [] }, idr.2)

/-- Sanitize the panels list left to right, threading the id supply. -/
def sanitizePanels (s : Supply) : List JSVal → Except Unit (List Panel × Supply)
  | [] => .ok ([], s)
  | p :: rest =>
      match sanitizePanel s p with
      | .error u => .error u
      | .ok r =>
          match sanitizePanels r.2 rest with
          | .error u => .error u
          | .ok r2 => .ok (r.1 :: r2.1, r2.2)

/-- `doc.layout in LAYOUTS ? doc.layout : '4'` (src/app.js line 152): the
raw layout value is kept whenever its property key is found on the
`LAYOUTS` object — own keys or inherited `Object.prototype` names. -/
def normLayout (v : JSVal) : JSVal :=
  if inLayoutsObj (toPropertyKey v) then v else .str "4"

/-- `loadJSON` after a successful `JSON.parse` (src/app.js lines 148-161):
the minimal shape check `!doc || !Array.isArray(doc.panels)` and every
exception thrown during sanitation land in the same `catch`
(`alert('Invalid JSON.')`, state unchanged), modelled as `.error ()`.
On success the whole page state is replaced by the sanitized document. -/
def loadJSON (s : Supply) (doc : JSVal) : Except Unit Page :=
  if ¬ truthy doc then .error ()
  else
    match jget doc "panels" with
    | .arr ps =>
        match sanitizePanels s ps with
        | .error u => .error u
        | .ok r => .ok { layout := normLayout (jget doc "layout"), panels := r.1 }
    | _ => .error ()

/-! ## Serialization (`saveJSON`: `JSON.stringify(page)` then `JSON.parse`
on load).  We model the composite `parse ∘ stringify` directly as a value
transformation: `NaN` and the infinities render as `null`, `undefined`
array elements render as `null`, `undefined`-valued object fields are
dropped. -/

/-- A `JNum` as it appears after `JSON.stringify`/`JSON.parse`. -/
def numToJSON : JNum → JSVal
  | .val q => .num (.val q)
  | _ => .null

mutual

/-- `JSON.parse(JSON.stringify v)` for a JS value. -/
def stringifyVal : JSVal → JSVal
  | .null => .null
  | .undefined => .null
  | .bool b => .bool b
  | .num n => numToJSON n
  | .str s => .str s
  | .arr xs => .arr (stringifyArr xs)
  | .obj fs => .obj (stringifyObj fs)

/-- Array elements under `JSON.stringify`. -/
def stringifyArr : List JSVal → List JSVal
  | [] => []
  | v :: r => stringifyVal v :: stringifyArr r

/-- Object fields under `JSON.stringify`: `undefined`-valued fields are
omitted. -/
def stringifyObj : List (String × JSVal) → List (String × JSVal)
  | [] => []
  | (_, .undefined) :: r => stringifyObj r
  | (k, v) :: r => (k, stringifyVal v) :: stringifyObj r

end

/-- One object field under `JSON.stringify`: dropped when the value is
`undefined`. -/
def mkField (k : String) (v : JSVal) : List (String × JSVal) :=
  match v with
  | .undefined => []
  | v => [(k, stringifyVal v)]

/-- Serialized form of a text element (the property order of
`defaultText`'s literal). -/
def serializeText (t : TextEl) : JSVal :=
  .obj ([("id", .str t.id), ("type", .str "text"), ("subtype", .str t.subtype),
         ("text", .str t.text), ("x", numToJSON t.x), ("y", numToJSON t.y),
         ("w", numToJSON t.w), ("h", numToJSON t.h),
         ("fontSize", numToJSON t.fontSize)]
        ++ mkField "color" t.color ++ mkField "bg" t.bg
        ++ mkField "rotate" t.rotate ++ mkField "z" t.z
        ++ [("align", .str t.align), ("radius", numToJSON t.radius),
            ("weight", numToJSON t.weight)])

/-- Serialized form of an image element. -/
def serializeImage (i : ImageEl) : JSVal :=
  .obj ([("id", .str i.id), ("type", .str "image")]
        ++ mkField "src" i.src
        ++ [("x", numToJSON i.x), ("y", numToJSON i.y), ("w", numToJSON i.w),
            ("h", numToJSON i.h)]
        ++ mkField "z" i.z ++ mkField "rotate" i.rotate)

/-- Serialized form of an element. -/
def serializeElement : Element → JSVal
  | .text t => serializeText t
  | .image i => serializeImage i

/-- Serialized form of a panel. -/
def serializePanel (p : Panel) : JSVal :=
  .obj (mkField "id" p.id ++ mkField "bg" p.bg
        ++ [("elements", .arr (p.elements.map serializeElement))])

/-- Serialized form of the whole page (`JSON.stringify(page)` then parse). -/
def serializePage (pg : Page) : JSVal :=
  .obj (mkField "layout" pg.layout
        ++ [("panels", .arr (pg.panels.map serializePanel))])

/-! ## Mutation engine (src/app.js lines 68-112) and interaction
(lines 199-227, 339-373).  Patches model the object-spread shallow merge
`{ ...el, ...patch }` for the property sets the program actually patches. -/

/-- A partial element patch (`{ ...el, ...patch }`); `none` = key absent. -/
structure ElPatch where
  x : Option JNum := none
  y : Option JNum := none
  w : Option JNum := none
  h : Option JNum := none
  fontSize : Option JNum := none
  radius : Option JNum := none
  weight : Option JNum := none
  text : Option String := none
  align : Option String := none
  color : Option JSVal := none
  bg : Option JSVal := none
  z : Option JSVal := none
  rotate : Option JSVal := none

/-- Shallow merge of a patch into a text element. -/
def applyPatchText (t : TextEl) (p : ElPatch) : TextEl :=
  { t with
    x := p.x.getD t.x, y := p.y.getD t.y, w := p.w.getD t.w, h := p.h.getD t.h
    fontSize := p.fontSize.getD t.fontSize, radius := p.radius.getD t.radius
    weight := p.weight.getD t.weight, text := p.text.getD t.text
    align := p.align.getD t.align, color := p.color.getD t.color
    bg := p.bg.getD t.bg, z := p.z.getD t.z, rotate := p.rotate.getD t.rotate }

/-- Shallow merge of a patch into an image element (the code only ever
patches images with the positional keys, `z` and `rotate`). -/
def applyPatchImage (i : ImageEl) (p : ElPatch) : ImageEl :=
  { i with
    x := p.x.getD i.x, y := p.y.getD i.y, w := p.w.getD i.w, h := p.h.getD i.h
    z := p.z.getD i.z, rotate := p.rotate.getD i.rotate }

/-- Shallow merge of a patch into an element. -/
def applyPatch : Element → ElPatch → Element
  | .text t, p => .text (applyPatchText t p)
  | .image i, p => .image (applyPatchImage i p)

/-- Field accessors used by the interaction handlers. -/
def Element.xOf : Element → JNum
  | .text t => t.x
  | .image i => i.x

/-- The element's `y` field. -/
def Element.yOf : Element → JNum
  | .text t => t.y
  | .image i => i.y

/-- The element's `w` field. -/
def Element.wOf : Element → JNum
  | .text t => t.w
  | .image i => i.w

/-- The element's `h` field. -/
def Element.hOf : Element → JNum
  | .text t => t.h
  | .image i => i.h

/-- The element's `z` field. -/
def Element.zOf : Element → JSVal
  | .text t => t.z
  | .image i => i.z

/-- The element's `rotate` field. -/
def Element.rotateOf : Element → JSVal
  | .text t => t.rotate
  | .image i => i.rotate

/-- Index-passing map (`array.map((x, i) => ...)`), recursing directly so
concrete instances compute. -/
def mapIdxFrom {α : Type} (f : ℕ → α → α) : ℕ → List α → List α
  | _, [] => []
  | i, a :: r => f i a :: mapIdxFrom f (i + 1) r

/-- `mutateElement(panelIdx, elId, patch)` (src/app.js lines 75-84): map
over panels, and inside the targeted panel merge the patch into the
element whose id matches; a non-resolving index or id leaves the page
unchanged. -/
def mutateElement (pg : Page) (panelIdx : ℕ) (elId : String) (patch : ElPatch) :
    Page :=
  { pg with
    panels := mapIdxFrom (fun i pan =>
      if i = panelIdx then
        { pan with
          elements := pan.elements.map fun el =>
            if el.idOf = elId then applyPatch el patch else el }
      else pan) 0 pg.panels }

/-- A partial panel patch, as passed to `setPanel`. -/
structure PanelPatch where
  bg : Option JSVal := none
  elements : Option (List Element) := none

/-- `setPanel(idx, patch)` (src/app.js lines 68-73). -/
def setPanel (pg : Page) (idx : ℕ) (patch : PanelPatch) : Page :=
  { pg with
    panels := mapIdxFrom (fun i pan =>
      if i = idx then
        { pan with
          bg := patch.bg.getD pan.bg
          elements := patch.elements.getD pan.elements }
      else pan) 0 pg.panels }

/-- `removeElement(panelIdx, elId)` (src/app.js lines 103-112); the
accompanying selection reset is transient UI state outside the document. -/
def removeElement (pg : Page) (panelIdx : ℕ) (elId : String) : Page :=
  { pg with
    panels := mapIdxFrom (fun i pan =>
      if i = panelIdx then
        { pan with elements := pan.elements.filter fun el => ¬ el.idOf = elId }
      else pan) 0 pg.panels }

/-- The transient selection `{ panelIdx, elId }`. -/
structure Selection where
  panelIdx : ℕ
  elId : Option String

/-- `page.panels[panelIdx]?.elements.find(x => x.id === elId)`. -/
def findEl (pg : Page) (panelIdx : ℕ) (elId : String) : Option Element :=
  match pg.panels.get? panelIdx with
  | some pan => pan.elements.find? fun el => decide (el.idOf = elId)
  | none => none

/-- Horizontal arrow step (src/app.js line 212). -/
def arrowDx (key : String) (step : ℚ) : ℚ :=
  if key = "ArrowRight" then step else if key = "ArrowLeft" then -step else 0

/-- Vertical arrow step (src/app.js line 213). -/
def arrowDy (key : String) (step : ℚ) : ℚ :=
  if key = "ArrowDown" then step else if key = "ArrowUp" then -step else 0

/-- The patch an arrow-key nudge commits (src/app.js line 214):
`{ x: el.x + dx, y: el.y + dy }`, with no clamping. -/
def nudgePatch (el : Element) (key : String) (step : ℚ) : ElPatch :=
  { x := some (jaddN el.xOf (.val (arrowDx key step)))
    y := some (jaddN el.yOf (.val (arrowDy key step))) }

/-- The `onKey` handler body (src/app.js lines 200-224) after its
focused-text-input guard: `Delete`/`Backspace` removes the selection,
arrows nudge by 1 (10 with shift), `]` is `{ z: (el.z ?? 0) + 1 }` (the JS
`+` operator), `[` is `{ z: Math.max(0, (el.z ?? 0) - 1) }`. -/
def onKey (pg : Page) (sel : Selection) (key : String) (shift : Bool) : Page :=
  match sel.elId with
  | none => pg
  | some elId =>
      let step : ℚ := if shift then 10 else 1
      if key = "Delete" ∨ key = "Backspace" then
        removeElement pg sel.panelIdx elId
      else if key = "ArrowUp" ∨ key = "ArrowDown" ∨ key = "ArrowLeft" ∨
          key = "ArrowRight" then
        match findEl pg sel.panelIdx elId with
        | none => pg
        | some el => mutateElement pg sel.panelIdx elId (nudgePatch el key step)
      else if key = "]" then
        match findEl pg sel.panelIdx elId with
        | none => pg
        | some el =>
            mutateElement pg sel.panelIdx elId
              { z := some (jsAdd (jcoalesce el.zOf (.num (.val 0))) (.num (.val 1))) }
      else if key = "[" then
        match findEl pg sel.panelIdx elId with
        | none => pg
        | some el =>
            mutateElement pg sel.panelIdx elId
              { z := some (.num (jmax (.val 0)
                  (jsubN (toNumber (jcoalesce el.zOf (.num (.val 0)))) (.val 1)))) }
      else pg

/-- The anchor rectangle captured at pointer-down. -/
structure DragRect where
  x : JNum
  y : JNum
  w : JNum
  h : JNum

/-- Gesture mode. -/
inductive DragKind where
  | move
  | resize

/-- The drag state stored in `dragRef` at pointer-down
(src/app.js lines 363-373). -/
structure DragState where
  id : String
  kind : DragKind
  startX : JNum
  startY : JNum
  startRect : DragRect

/-- `startDrag` (src/app.js lines 363-373): capture the element's rect and
the pointer position. -/
def startDrag (el : Element) (kind : DragKind) (clientX clientY : JNum) :
    DragState :=
  { id := el.idOf, kind := kind, startX := clientX, startY := clientY
    startRect := { x := el.xOf, y := el.yOf, w := el.wOf, h := el.hOf } }

/-- The patch the `pointermove` handler commits (src/app.js lines 342-353):
`dx = clientX - startX`, `dy = clientY - startY`; move is unclamped, resize
floors both dimensions at 20. -/
def dragPatch (d : DragState) (clientX clientY : JNum) : ElPatch :=
  let dx := jsubN clientX d.startX
  let dy := jsubN clientY d.startY
  match d.kind with
  | .move =>
      { x := some (jaddN d.startRect.x dx), y := some (jaddN d.startRect.y dy) }
  | .resize =>
      { w := some (jmax (.val 20) (jaddN d.startRect.w dx))
        h := some (jmax (.val 20) (jaddN d.startRect.h dy)) }

/-- The whole `pointermove` handler: no active gesture is a no-op,
otherwise the patch is committed through `mutateElement` on every move. -/
def onPointerMove (pg : Page) (panelIdx : ℕ) (d : Option DragState)
    (clientX clientY : JNum) : Page :=
  match d with
  | none => pg
  | some ds => mutateElement pg panelIdx ds.id (dragPatch ds clientX clientY)

/-- `onLayout` (src/app.js line 234): `setPage(p => ({ ...p, layout }))`. -/
def setLayout (pg : Page) (k : String) : Page := { pg with layout := .str k }

/-- The `while (panels.length < need) panels.push({...})` loop of the
layout-sync effect, unrolled over the number of missing panels. -/
def padPanels (s : Supply) : ℕ → List Panel → List Panel × Supply
  | 0, ps => (ps, s)
  | n + 1, ps =>
      let f := s.fresh
      padPanels f.2 n (ps ++ [freshPanel f.1])

/-- The layout-sync effect (src/app.js lines 59-66): truncate with
`slice(0, need)` and pad with fresh empty white panels.  For a layout key
inherited from `Object.prototype`, `LAYOUTS[k].panels` is `undefined`, so
`slice(0, undefined)` copies the whole list and the `while` guard
`length < undefined` is false: the panels are unchanged.  (A key outside
the object entirely would throw on the property read, but the app never
stores one.) -/
def syncPanelCount (s : Supply) (pg : Page) : Page × Supply :=
  match layoutPanelCount (toPropertyKey pg.layout) with
  | some need =>
      let kept := pg.panels.take need
      let r := padPanels s (need - kept.length) kept
      ({ pg with panels := r.1 }, r.2)
  | none => (pg, s)

/-! ## Export adapter (`exportPNG`, src/app.js lines 115-134) -/

/-- `exportPNG`, with the external renderer's outcome as an argument and
`localStorage` as an optional stored string.  On success the data URL is
downloaded (second component `true`) and the counter re-stored as
`String(Number(stored || '0') + 1)`; the renderer throwing lands in the
`catch` before the download and the counter update, leaving both
untouched. -/
def exportPNG (render : Except Unit String) (store : Option String) :
    Option String × Bool :=
  match render with
  | .ok _ =>
      let raw : JSVal := match store with | some s => .str s | none => .null
      let n := jaddN (toNumber (jor raw (.str "0"))) (.val 1)
      (some (numToString n), true)
  | .error _ => (store, false)

/-! ## Range and well-formedness predicates -/

/-- A JS number is a (finite) value inside `[lo, hi]`. -/
def rangeOk (lo hi : ℚ) : JNum → Bool
  | .val q => decide (lo ≤ q) && decide (q ≤ hi)
  | _ => false

/-- All clamped numeric fields of a text element lie in their documented
ranges. -/
def textInRange (t : TextEl) : Bool :=
  rangeOk 0 10000 t.x && rangeOk 0 10000 t.y && rangeOk 40 10000 t.w &&
  rangeOk 30 10000 t.h && rangeOk 8 160 t.fontSize && rangeOk 0 64 t.radius &&
  rangeOk 100 900 t.weight

/-- All clamped numeric fields of an image element lie in their documented
ranges. -/
def imageInRange (i : ImageEl) : Bool :=
  rangeOk 0 10000 i.x && rangeOk 0 10000 i.y && rangeOk 10 10000 i.w &&
  rangeOk 10 10000 i.h

/-- Documented numeric ranges for an element. -/
def elemInRange : Element → Bool
  | .text t => textInRange t
  | .image i => imageInRange i

/-- Every element of every panel is within the documented ranges. -/
def pageInRange (pg : Page) : Bool :=
  pg.panels.all fun pan => pan.elements.all elemInRange

/-- A raw numeric field of an input element is benign: absent/nullish (the
default applies) or coercing to something other than `NaN`. -/
def fieldNumOk (el : JSVal) (k : String) : Bool :=
  nullish (jget el k) || decide (toNumber (jget el k) ≠ .nan)

/-- All numeric fields the sanitizer clamps are benign. -/
def numFieldsOk (el : JSVal) : Bool :=
  fieldNumOk el "x" && fieldNumOk el "y" && fieldNumOk el "w" &&
  fieldNumOk el "h" && fieldNumOk el "fontSize" && fieldNumOk el "radius" &&
  fieldNumOk el "weight"

mutual

/-- The value survives `JSON.stringify`/`JSON.parse` unchanged: no
`undefined`, no `NaN`, no infinities anywhere inside. -/
def serializableVal : JSVal → Bool
  | .null => true
  | .undefined => false
  | .bool _ => true
  | .num (.val _) => true
  | .num _ => false
  | .str _ => true
  | .arr xs => serializableList xs
  | .obj fs => serializableFields fs

/-- Serializability of a list of values. -/
def serializableList : List JSVal → Bool
  | [] => true
  | v :: r => serializableVal v && serializableList r

/-- Serializability of object fields. -/
def serializableFields : List (String × JSVal) → Bool
  | [] => true
  | f :: r => serializableVal f.2 && serializableFields r

end

/-- A text element as the sanitizer itself would produce it, restricted to
serializable field values (no `NaN` that would decay to `null` in the
save file). -/
def sanitizedText (t : TextEl) : Bool :=
  decide (t.subtype = "speech" ∨ t.subtype = "caption" ∨ t.subtype = "sfx") &&
  decide (t.align = "left" ∨ t.align = "center" ∨ t.align = "right") &&
  decide (t.text.length ≤ 2000) &&
  textInRange t &&
  truthy t.color && serializableVal t.color &&
  truthy t.bg && serializableVal t.bg &&
  !nullish t.z && serializableVal t.z &&
  !nullish t.rotate && serializableVal t.rotate

/-- An image element as the sanitizer itself would produce it, restricted
to serializable field values. -/
def sanitizedImage (i : ImageEl) : Bool :=
  imageInRange i &&
  (truthy i.src || isStrEq i.src "") && serializableVal i.src &&
  !nullish i.z && serializableVal i.z &&
  !nullish i.rotate && serializableVal i.rotate

/-- Sanitized-shape predicate for an element. -/
def sanitizedElem : Element → Bool
  | .text t => sanitizedText t
  | .image i => sanitizedImage i

/-- Sanitized-shape predicate for a panel: truthy serializable `id` and
`bg`, sanitized elements. -/
def sanitizedPanel (p : Panel) : Bool :=
  truthy p.id && serializableVal p.id && truthy p.bg && serializableVal p.bg &&
  p.elements.all sanitizedElem

/-- Sanitized-shape predicate for a page: a recognized string layout key
and sanitized panels. -/
def sanitizedPage (pg : Page) : Bool :=
  (match pg.layout with
   | .str s => layoutKeys.contains s
   | _ => false) &&
  pg.panels.all sanitizedPanel

/-- Elements with ids regenerated from the supply stream, in order. -/
def regenElemsL (u : ℕ → String) : ℕ → List Element → List Element
  | _, [] => []
  | k, e :: r => e.setId (u k) :: regenElemsL u (k + 1) r

/-- Panels with all element ids regenerated from the supply stream. -/
def regenPanelsL (u : ℕ → String) : ℕ → List Panel → List Panel
  | _, [] => []
  | k, p :: r =>
      { p with elements := regenElemsL u k p.elements } ::
        regenPanelsL u (k + p.elements.length) r

/-- The page with every element id regenerated from the supply, all other
fields untouched. -/
def regenPage (s : Supply) (pg : Page) : Page :=
  { pg with panels := regenPanelsL s.ids s.next pg.panels }

/-! ## Helper lemmas -/

theorem rangeOk_elim {lo hi : ℚ} {n : JNum} (h : rangeOk lo hi n = true) :
    ∃ q : ℚ, n = .val q ∧ lo ≤ q ∧ q ≤ hi := by
  cases n with
  | val q =>
      have h' : lo ≤ q ∧ q ≤ hi := by simpa [rangeOk, Bool.and_eq_true] using h
      exact ⟨q, rfl, h'.1, h'.2⟩
  | nan => simp [rangeOk] at h
  | inf => simp [rangeOk] at h
  | ninf => simp [rangeOk] at h

theorem clamp_of_mem {lo hi q : ℚ} (h1 : lo ≤ q) (h2 : q ≤ hi) :
    clamp (.val q) (.val lo) (.val hi) = .val q := by
  simp [clamp, jmin, jmax, min_eq_right h2, max_eq_right h1]

theorem jor_of_truthy {v d : JSVal} (h : truthy v = true) : jor v d = v := by
  simp [jor, h]

theorem jcoalesce_of_not_nullish {v d : JSVal} (h : nullish v = false) :
    jcoalesce v d = v := by
  simp [jcoalesce, h]

theorem jcoalesce_num (n : JNum) (d : JSVal) : jcoalesce (.num n) d = .num n :=
  rfl

theorem jcoalesce_str (s : String) (d : JSVal) : jcoalesce (.str s) d = .str s :=
  rfl

theorem strTake_of_le {s : String} {n : ℕ} (h : s.length ≤ n) :
    strTake s n = s := by
  unfold strTake
  have : s.data.take n = s.data := List.take_of_length_le h
  simp [this]

theorem mkField_of_ne_undef {k : String} {v : JSVal} (h : v ≠ .undefined) :
    mkField k v = [(k, stringifyVal v)] := by
  unfold mkField
  cases v <;> simp_all

mutual

theorem stringify_id (v : JSVal) (h : serializableVal v = true) :
    stringifyVal v = v := by
  cases v with
  | null => rfl
  | undefined => simp [serializableVal] at h
  | bool b => rfl
  | num n =>
      cases n with
      | val q => rfl
      | nan => simp [serializableVal] at h
      | inf => simp [serializableVal] at h
      | ninf => simp [serializableVal] at h
  | str s => rfl
  | arr xs =>
      have := stringify_id_list xs (by simpa [serializableVal] using h)
      simp [stringifyVal, this]
  | obj fs =>
      have := stringify_id_fields fs (by simpa [serializableVal] using h)
      simp [stringifyVal, this]

theorem stringify_id_list (xs : List JSVal) (h : serializableList xs = true) :
    stringifyArr xs = xs := by
  cases xs with
  | nil => rfl
  | cons v r =>
      rw [serializableList, Bool.and_eq_true] at h
      have h1 := stringify_id v h.1
      have h2 := stringify_id_list r h.2
      simp [stringifyArr, h1, h2]

theorem stringify_id_fields (fs : List (String × JSVal))
    (h : serializableFields fs = true) : stringifyObj fs = fs := by
  cases fs with
  | nil => rfl
  | cons f r =>
      rw [serializableFields, Bool.and_eq_true] at h
      have h2 := stringify_id_fields r h.2
      obtain ⟨k, v⟩ := f
      cases v with
      | undefined => simp [serializableVal] at h
      | null => simpa [stringifyObj, stringifyVal] using h2
      | bool b => simpa [stringifyObj, stringifyVal] using h2
      | num n =>
          have h1 := stringify_id (.num n) h.1
          simpa [stringifyObj, h1] using h2
      | str s => simpa [stringifyObj, stringifyVal] using h2
      | arr xs =>
          have h1 := stringify_id (.arr xs) h.1
          simpa [stringifyObj, h1] using h2
      | obj gs =>
          have h1 := stringify_id (.obj gs) h.1
          simpa [stringifyObj, h1] using h2

end

theorem truthy_ne_undef {v : JSVal} (h : truthy v = true) : v ≠ .undefined := by
  intro e
  subst e
  simp [truthy] at h

theorem not_nullish_ne_undef {v : JSVal} (h : nullish v = false) :
    v ≠ .undefined := by
  intro e
  subst e
  simp [nullish] at h

theorem subtypeOf_mem {s : String}
    (h : s = "speech" ∨ s = "caption" ∨ s = "sfx") :
    subtypeOf (.str s) = s := by
  simp [subtypeOf, h]

theorem alignOf_mem {s : String}
    (h : s = "left" ∨ s = "center" ∨ s = "right") :
    alignOf (.str s) = s := by
  simp [alignOf, h]

theorem sanitize_serialize_text (t : TextEl) (s : Supply)
    (h : sanitizedText t = true) :
    sanitizeElement s (serializeText t) =
      .ok (.text { t with id := s.ids s.next }, ⟨s.ids, s.next + 1⟩) := by
  obtain ⟨id, subtype, text, x, y, w, h', fontSize, color, bg, rotate, z,
    align, radius, weight⟩ := t
  simp only [sanitizedText, Bool.and_eq_true, decide_eq_true_eq,
    Bool.not_eq_true'] at h
  obtain ⟨⟨⟨⟨⟨⟨⟨⟨⟨⟨⟨hsub, halign⟩, hlen⟩, hrange⟩, hcT⟩, hcS⟩, hbT⟩, hbS⟩,
    hzN⟩, hzS⟩, hrN⟩, hrS⟩ := h
  simp only [textInRange, Bool.and_eq_true] at hrange
  obtain ⟨⟨⟨⟨⟨⟨hx, hy⟩, hw⟩, hh⟩, hf⟩, hrd⟩, hwt⟩ := hrange
  obtain ⟨qx, ex, hx1, hx2⟩ := rangeOk_elim hx
  obtain ⟨qy, ey, hy1, hy2⟩ := rangeOk_elim hy
  obtain ⟨qw, ew, hw1, hw2⟩ := rangeOk_elim hw
  obtain ⟨qh, eh, hh1, hh2⟩ := rangeOk_elim hh
  obtain ⟨qf, ef, hf1, hf2⟩ := rangeOk_elim hf
  obtain ⟨qrd, erd, hrd1, hrd2⟩ := rangeOk_elim hrd
  obtain ⟨qwt, ewt, hwt1, hwt2⟩ := rangeOk_elim hwt
  subst ex ey ew eh ef erd ewt
  have hser : serializeText
      ⟨id, subtype, text, .val qx, .val qy, .val qw, .val qh, .val qf, color,
        bg, rotate, z, align, .val qrd, .val qwt⟩ =
      .obj [("id", .str id), ("type", .str "text"), ("subtype", .str subtype),
        ("text", .str text), ("x", .num (.val qx)), ("y", .num (.val qy)),
        ("w", .num (.val qw)), ("h", .num (.val qh)),
        ("fontSize", .num (.val qf)), ("color", color), ("bg", bg),
        ("rotate", rotate), ("z", z), ("align", .str align),
        ("radius", .num (.val qrd)), ("weight", .num (.val qwt))] := by
    rw [serializeText,
      mkField_of_ne_undef (truthy_ne_undef hcT), stringify_id color hcS,
      mkField_of_ne_undef (truthy_ne_undef hbT), stringify_id bg hbS,
      mkField_of_ne_undef (not_nullish_ne_undef hrN), stringify_id rotate hrS,
      mkField_of_ne_undef (not_nullish_ne_undef hzN), stringify_id z hzS]
    rfl
  rw [hser]
  simp [sanitizeElement, Supply.fresh, sanNum, jget, jcoalesce_num,
    jcoalesce_str, nullish, toNumber, jsToString, isStrEq,
    subtypeOf_mem hsub, alignOf_mem halign,
    strTake_of_le hlen, clamp_of_mem hx1 hx2, clamp_of_mem hy1 hy2,
    clamp_of_mem hw1 hw2, clamp_of_mem hh1 hh2, clamp_of_mem hf1 hf2,
    clamp_of_mem hrd1 hrd2, clamp_of_mem hwt1 hwt2, jor_of_truthy hcT,
    jor_of_truthy hbT, jcoalesce_of_not_nullish hrN,
    jcoalesce_of_not_nullish hzN]

theorem sanitize_serialize_image (i : ImageEl) (s : Supply)
    (h : sanitizedImage i = true) :
    sanitizeElement s (serializeImage i) =
      .ok (.image { i with id := s.ids s.next }, ⟨s.ids, s.next + 1⟩) := by
  obtain ⟨id, src, x, y, w, h', z, rotate⟩ := i
  simp only [sanitizedImage, Bool.and_eq_true, Bool.or_eq_true,
    Bool.not_eq_true'] at h
  obtain ⟨⟨⟨⟨⟨⟨hrange, hsrc⟩, hsS⟩, hzN⟩, hzS⟩, hrN⟩, hrS⟩ := h
  simp only [imageInRange, Bool.and_eq_true] at hrange
  obtain ⟨⟨⟨hx, hy⟩, hw⟩, hh⟩ := hrange
  obtain ⟨qx, ex, hx1, hx2⟩ := rangeOk_elim hx
  obtain ⟨qy, ey, hy1, hy2⟩ := rangeOk_elim hy
  obtain ⟨qw, ew, hw1, hw2⟩ := rangeOk_elim hw
  obtain ⟨qh, eh, hh1, hh2⟩ := rangeOk_elim hh
  subst ex ey ew eh
  have hsrcU : src ≠ .undefined := by
    rcases hsrc with h1 | h1
    · exact truthy_ne_undef h1
    · cases src <;> simp_all [isStrEq]
  have hser : serializeImage ⟨id, src, .val qx, .val qy, .val qw, .val qh, z,
      rotate⟩ =
      .obj [("id", .str id), ("type", .str "image"), ("src", src),
        ("x", .num (.val qx)), ("y", .num (.val qy)), ("w", .num (.val qw)),
        ("h", .num (.val qh)), ("z", z), ("rotate", rotate)] := by
    rw [serializeImage,
      mkField_of_ne_undef hsrcU, stringify_id src hsS,
      mkField_of_ne_undef (not_nullish_ne_undef hzN), stringify_id z hzS,
      mkField_of_ne_undef (not_nullish_ne_undef hrN), stringify_id rotate hrS]
    rfl
  rw [hser]
  have hsrcKeep : jor src (.str "") = src := by
    rcases hsrc with h1 | h1
    · exact jor_of_truthy h1
    · cases src <;> simp_all [isStrEq, jor, truthy]
  simp [sanitizeElement, Supply.fresh, sanNum, jget, jcoalesce_num, nullish,
    toNumber, isStrEq, hsrcKeep, clamp_of_mem hx1 hx2, clamp_of_mem hy1 hy2,
    clamp_of_mem hw1 hw2, clamp_of_mem hh1 hh2,
    jcoalesce_of_not_nullish hzN, jcoalesce_of_not_nullish hrN]

theorem sanitize_serialize_elem (e : Element) (s : Supply)
    (h : sanitizedElem e = true) :
    sanitizeElement s (serializeElement e) =
      .ok (e.setId (s.ids s.next), ⟨s.ids, s.next + 1⟩) := by
  cases e with
  | text t => exact sanitize_serialize_text t s h
  | image i => exact sanitize_serialize_image i s h

theorem sanitize_serialize_elems (es : List Element) (ids : ℕ → String)
    (k : ℕ) (h : es.all sanitizedElem = true) :
    sanitizeElems ⟨ids, k⟩ (es.map serializeElement) =
      .ok (regenElemsL ids k es, ⟨ids, k + es.length⟩) := by
  induction es generalizing k with
  | nil => simp [sanitizeElems, regenElemsL]
  | cons e r ih =>
      rw [List.all_cons, Bool.and_eq_true] at h
      have he := sanitize_serialize_elem e ⟨ids, k⟩ h.1
      have harith : k + 1 + r.length = k + (r.length + 1) := by omega
      simp only [List.map_cons, sanitizeElems, he, ih (k + 1) h.2,
        regenElemsL, List.length_cons, harith]

theorem sanitize_serialize_panel (p : Panel) (ids : ℕ → String) (k : ℕ)
    (h : sanitizedPanel p = true) :
    sanitizePanel ⟨ids, k⟩ (serializePanel p) =
      .ok ({ p with elements := regenElemsL ids k p.elements },
        ⟨ids, k + p.elements.length⟩) := by
  obtain ⟨pid, pbg, pels⟩ := p
  simp only [sanitizedPanel, Bool.and_eq_true] at h
  obtain ⟨⟨⟨⟨hiT, hiS⟩, hbT⟩, hbS⟩, hels⟩ := h
  have hser : serializePanel ⟨pid, pbg, pels⟩ =
      .obj [("id", pid), ("bg", pbg),
        ("elements", .arr (pels.map serializeElement))] := by
    rw [serializePanel, mkField_of_ne_undef (truthy_ne_undef hiT),
      stringify_id pid hiS, mkField_of_ne_undef (truthy_ne_undef hbT),
      stringify_id pbg hbS]
    rfl
  rw [hser]
  simp [sanitizePanel, jget, nullish, hiT, jor_of_truthy hbT,
    sanitize_serialize_elems pels ids k hels, truthy_ne_undef hiT]

/-- Total number of elements across a list of panels. -/
def totalElems (ps : List Panel) : ℕ :=
  (ps.map fun p => p.elements.length).sum

theorem sanitize_serialize_panels (ps : List Panel) (ids : ℕ → String) (k : ℕ)
    (h : ps.all sanitizedPanel = true) :
    sanitizePanels ⟨ids, k⟩ (ps.map serializePanel) =
      .ok (regenPanelsL ids k ps, ⟨ids, k + totalElems ps⟩) := by
  induction ps generalizing k with
  | nil => simp [sanitizePanels, regenPanelsL, totalElems]
  | cons p r ih =>
      rw [List.all_cons, Bool.and_eq_true] at h
      have hp := sanitize_serialize_panel p ids k h.1
      have harith : k + p.elements.length + totalElems r =
          k + totalElems (p :: r) := by
        simp only [totalElems, List.map_cons, List.sum_cons]
        omega
      simp only [List.map_cons, sanitizePanels, hp,
        ih (k + p.elements.length) h.2, regenPanelsL, harith]

/-! ## Claim theorems -/

/-- Claim C1 (amended): for every document in the sanitizer's own image
(recognized string layout key, truthy serializable panel ids and
backgrounds, sanitized serializable elements), loading its serialization
reproduces the document exactly — every field of every panel and element
unchanged — except that each element's `id` is regenerated to a fresh
`uid()` value drawn from the supply in document order.  Sanitization is
therefore idempotent up to element-id regeneration, not up to identity. -/
theorem C1_round_trip_mod_ids (pg : Page) (s : Supply)
    (h : sanitizedPage pg = true) :
    loadJSON s (serializePage pg) = .ok (regenPage s pg) := by
  obtain ⟨ids, next⟩ := s
  obtain ⟨lay, panels⟩ := pg
  simp only [sanitizedPage, Bool.and_eq_true] at h
  obtain ⟨hlay, hpanels⟩ := h
  have hk : ∃ k, lay = JSVal.str k ∧ layoutKeys.contains k = true := by
    cases lay <;> simp_all
  obtain ⟨k, ek, hk⟩ := hk
  subst ek
  have hser : serializePage ⟨.str k, panels⟩ =
      .obj [("layout", .str k),
        ("panels", .arr (panels.map serializePanel))] := by
    simp [serializePage, mkField, stringifyVal]
  rw [hser]
  have hpan := sanitize_serialize_panels panels ids next hpanels
  have hkm : k ∈ layoutKeys := by simpa using hk
  simp [loadJSON, jget, truthy, hpan, normLayout, toPropertyKey,
    jsToString, inLayoutsObj, hkm, regenPage]

/-- Witness page for C1: a one-panel document holding one default speech
element. -/
def c1WitnessPage : Page :=
  { layout := .str "4"
    panels := [{ id := .str "p1", bg := .str "#ffffff"
                 elements := [.text (defaultText "e1" "speech")] }] }

/-- Witness for C1 at a concrete sanitized document and supply. -/
theorem C1_round_trip_mod_ids_witness :
    sanitizedPage c1WitnessPage = true ∧
    loadJSON ⟨fun n => "u" ++ Nat.repr n, 0⟩ (serializePage c1WitnessPage) =
      .ok (regenPage ⟨fun n => "u" ++ Nat.repr n, 0⟩ c1WitnessPage) :=
  ⟨by decide, C1_round_trip_mod_ids c1WitnessPage _ (by decide)⟩

/-- Claim C1 counterexample: the default speech element is already
sanitized, yet sanitizing the parse of its serialization with a supply
whose next `uid()` is `"id-two"` yields an element whose `id` is
`"id-two"`, not the original `"id-one"` — sanitization changes the `id`
field of every element. -/
theorem C1_counterexample :
    sanitizedElem (.text (defaultText "id-one" "speech")) = true ∧
    (sanitizeElement ⟨fun _ => "id-two", 0⟩
        (serializeElement (.text (defaultText "id-one" "speech")))).map
      (fun r => r.1.idOf) = .ok "id-two" ∧
    ("id-two" : String) ≠ "id-one" := by
  refine ⟨by decide, by rfl, by decide⟩

/-- Did the computation succeed (`Except.ok`)? -/
def exOk {α : Type} : Except Unit α → Bool
  | .ok _ => true
  | .error _ => false

/-- A panels-array entry that sanitation survives: a non-nullish value
whose `elements`, when an array, contains only non-nullish entries. -/
def panelEntryOk (p : JSVal) : Bool :=
  !nullish p &&
  (match jget p "elements" with
   | .arr es => es.all fun e => !nullish e
   | _ => true)

/-- Characterization of the inputs `loadJSON` accepts. -/
def loadOkInput (doc : JSVal) : Bool :=
  truthy doc &&
  (match jget doc "panels" with
   | .arr ps => ps.all panelEntryOk
   | _ => false)

theorem exOk_sanitizeElement (s : Supply) (el : JSVal) :
    exOk (sanitizeElement s el) = !nullish el := by
  by_cases h : nullish el = true
  · simp [sanitizeElement, h, exOk]
  · simp only [Bool.not_eq_true] at h
    simp only [sanitizeElement, h, Bool.false_eq_true, if_false, Bool.not_false]
    split <;> rfl

theorem exOk_sanitizeElems (es : List JSVal) (s : Supply) :
    exOk (sanitizeElems s es) = es.all (fun e => !nullish e) := by
  induction es generalizing s with
  | nil => rfl
  | cons e r ih =>
      simp only [sanitizeElems, List.all_cons]
      cases hs : sanitizeElement s e with
      | error u =>
          have he := exOk_sanitizeElement s e
          rw [hs] at he
          simp only [exOk] at he
          simp [exOk, ← he]
      | ok r' =>
          have he := exOk_sanitizeElement s e
          rw [hs] at he
          simp only [exOk] at he
          cases hr : sanitizeElems r'.2 r with
          | error u =>
              have hr' := ih r'.2
              rw [hr] at hr'
              simp only [exOk] at hr'
              simp [exOk, hr, ← he, ← hr']
          | ok rr =>
              have hr' := ih r'.2
              rw [hr] at hr'
              simp only [exOk] at hr'
              simp [exOk, hr, ← he, ← hr']

theorem exOk_sanitizePanel (s : Supply) (p : JSVal) :
    exOk (sanitizePanel s p) = panelEntryOk p := by
  by_cases h : nullish p = true
  · simp [sanitizePanel, panelEntryOk, h, exOk]
  · simp only [Bool.not_eq_true] at h
    simp only [sanitizePanel, panelEntryOk, h, Bool.false_eq_true, if_false,
      Bool.not_false, Bool.true_and]
    cases he : jget p "elements" with
    | arr es =>
        cases hr : sanitizeElems (if truthy (jget p "id") then
            (jget p "id", s) else
            (.str (s.fresh).1, (s.fresh).2) : JSVal × Supply).2 es with
        | error u =>
            have h2 := exOk_sanitizeElems es (if truthy (jget p "id") then
              (jget p "id", s) else (.str (s.fresh).1, (s.fresh).2) :
              JSVal × Supply).2
            rw [hr] at h2
            simp only [exOk] at h2
            simp [exOk, hr, ← h2]
        | ok rr =>
            have h2 := exOk_sanitizeElems es (if truthy (jget p "id") then
              (jget p "id", s) else (.str (s.fresh).1, (s.fresh).2) :
              JSVal × Supply).2
            rw [hr] at h2
            simp only [exOk] at h2
            simp [exOk, hr, ← h2]
    | null => simp [exOk]
    | undefined => simp [exOk]
    | bool b => simp [exOk]
    | num n => simp [exOk]
    | str st => simp [exOk]
    | obj fs => simp [exOk]

theorem exOk_sanitizePanels (ps : List JSVal) (s : Supply) :
    exOk (sanitizePanels s ps) = ps.all panelEntryOk := by
  induction ps generalizing s with
  | nil => rfl
  | cons p r ih =>
      simp only [sanitizePanels, List.all_cons]
      cases hs : sanitizePanel s p with
      | error u =>
          have he := exOk_sanitizePanel s p
          rw [hs] at he
          simp only [exOk] at he
          simp [exOk, ← he]
      | ok r' =>
          have he := exOk_sanitizePanel s p
          rw [hs] at he
          simp only [exOk] at he
          cases hr : sanitizePanels r'.2 r with
          | error u =>
              have hr' := ih r'.2
              rw [hr] at hr'
              simp only [exOk] at hr'
              simp [exOk, hr, ← he, ← hr']
          | ok rr =>
              have hr' := ih r'.2
              rw [hr] at hr'
              simp only [exOk] at hr'
              simp [exOk, hr, ← he, ← hr']

/-- Claim C2 (amended): the load path never throws to the caller — every
exception raised during sanitation is caught by the same handler as the
minimal shape check, surfacing as the single `InvalidDocument` signal.  It
returns a structurally valid Document exactly for inputs that are truthy,
have an array `panels` field, and whose panels array contains only
non-nullish entries with (when present as an array) only non-nullish
element entries; a nullish panel or element entry makes the property reads
inside sanitation throw, so such inputs signal `InvalidDocument` even
though they are objects with an array `panels` field. -/
theorem C2_load_ok_iff (s : Supply) (doc : JSVal) :
    exOk (loadJSON s doc) = loadOkInput doc := by
  by_cases h : truthy doc = true
  · simp only [loadJSON, loadOkInput, h, Bool.not_true, Bool.false_eq_true,
      if_false, Bool.true_and]
    cases hp : jget doc "panels" with
    | arr ps =>
        cases hr : sanitizePanels s ps with
        | error u =>
            have h2 := exOk_sanitizePanels ps s
            rw [hr] at h2
            simp only [exOk] at h2
            simp [exOk, hr, ← h2]
        | ok rr =>
            have h2 := exOk_sanitizePanels ps s
            rw [hr] at h2
            simp only [exOk] at h2
            simp [exOk, hr, ← h2]
    | null => simp [exOk]
    | undefined => simp [exOk]
    | bool b => simp [exOk]
    | num n => simp [exOk]
    | str st => simp [exOk]
    | obj fs => simp [exOk]
  · simp only [Bool.not_eq_true] at h
    simp [loadJSON, loadOkInput, h, exOk]

/-- Claim C2 counterexample: `{ panels: [null] }` is a truthy object whose
`panels` field is an array, yet loading it signals `InvalidDocument`
(reading `p.id` of the `null` panel entry throws into the same catch),
so sanitation does not produce a document for every object with an array
`panels`. -/
theorem C2_counterexample :
    truthy (.obj [("panels", .arr [.null])]) = true ∧
    isArr (jget (.obj [("panels", .arr [.null])]) "panels") = true ∧
    loadJSON ⟨fun n => Nat.repr n, 0⟩ (.obj [("panels", .arr [.null])]) =
      .error () :=
  ⟨rfl, rfl, rfl⟩

theorem clamp_mem_of_ne_nan {n : JNum} {lo hi : ℚ} (hlh : lo ≤ hi)
    (h : n ≠ .nan) : rangeOk lo hi (clamp n (.val lo) (.val hi)) = true := by
  cases n with
  | nan => exact absurd rfl h
  | inf => simp [clamp, jmin, jmax, rangeOk, max_eq_right hlh, hlh]
  | ninf => simp [clamp, jmin, jmax, rangeOk, hlh]
  | val q =>
      simp only [clamp, jmin, jmax, rangeOk, Bool.and_eq_true,
        decide_eq_true_eq]
      exact ⟨le_max_left lo _, max_le hlh (le_trans (min_le_left hi q) le_rfl)⟩

theorem sanNum_range {el : JSVal} {k : String} {dflt lo hi : ℚ}
    (hlh : lo ≤ hi) (hok : fieldNumOk el k = true) :
    rangeOk lo hi (sanNum el k dflt lo hi) = true := by
  unfold sanNum
  apply clamp_mem_of_ne_nan hlh
  by_cases hn : nullish (jget el k) = true
  · simp [jcoalesce, hn, toNumber]
  · simp only [Bool.not_eq_true] at hn
    rw [jcoalesce_of_not_nullish hn]
    simpa [fieldNumOk, hn] using hok

/-- Claim C3 (amended): for every input element all of whose clamped
numeric fields are absent, nullish, or coerce to something other than
`NaN`, every clamped field of the sanitized element lies in its documented
range (x, y in [0,10000]; image w, h in [10,10000]; text w in [40,10000],
h in [30,10000]; fontSize in [8,160]; cornerRadius in [0,64]; weight in
[100,900]); a missing numeric field falls back to the sanitizer's default
table before clamping (x,y:24; text w:200, h:80, fontSize:20, radius 16/8
by subtype, weight 800/600 by subtype; image w:300, h:220), as witnessed
on the empty text and image inputs.  A field that coerces to `NaN`
(e.g. an object) escapes the range, because `clamp` propagates `NaN`. -/
theorem C3_clamped_ranges :
    (∀ (el : JSVal) (s : Supply) (r : Element × Supply),
        numFieldsOk el = true → sanitizeElement s el = .ok r →
        elemInRange r.1 = true) ∧
    sanitizeElement ⟨fun _ => "d", 0⟩ (.obj []) =
      .ok (.text ⟨"d", "speech", "", .val 24, .val 24, .val 200, .val 80,
        .val 20, .str "#111827", .str "#ffffffcc", .num (.val 0),
        .num (.val 1), "left", .val 16, .val 600⟩, ⟨fun _ => "d", 1⟩) ∧
    sanitizeElement ⟨fun _ => "d", 0⟩ (.obj [("type", .str "image")]) =
      .ok (.image ⟨"d", .str "", .val 24, .val 24, .val 300, .val 220,
        .num (.val 0), .num (.val 0)⟩, ⟨fun _ => "d", 1⟩) := by
  refine ⟨?_, rfl, rfl⟩
  intro el s r hok hs
  obtain ⟨⟨⟨⟨⟨⟨hx, hy⟩, hw⟩, hh⟩, hf⟩, hrd⟩, hwt⟩ :
      (((((fieldNumOk el "x" = true ∧ fieldNumOk el "y" = true) ∧
        fieldNumOk el "w" = true) ∧ fieldNumOk el "h" = true) ∧
        fieldNumOk el "fontSize" = true) ∧ fieldNumOk el "radius" = true) ∧
        fieldNumOk el "weight" = true := by
    simpa [numFieldsOk, Bool.and_eq_true] using hok
  unfold sanitizeElement at hs
  by_cases hn : nullish el = true
  · simp [hn] at hs
  · simp only [hn, Bool.false_eq_true, if_false] at hs
    by_cases ht : isStrEq (jget el "type") "image" = true
    · rw [if_pos ht] at hs
      cases hs
      have r1 : rangeOk 0 10000 (sanNum el "x" 24 0 10000) = true :=
        sanNum_range (by norm_num) hx
      have r2 : rangeOk 0 10000 (sanNum el "y" 24 0 10000) = true :=
        sanNum_range (by norm_num) hy
      have r3 : rangeOk 10 10000 (sanNum el "w" 300 10 10000) = true :=
        sanNum_range (by norm_num) hw
      have r4 : rangeOk 10 10000 (sanNum el "h" 220 10 10000) = true :=
        sanNum_range (by norm_num) hh
      simp [elemInRange, imageInRange, r1, r2, r3, r4]
    · rw [if_neg ht] at hs
      cases hs
      have r1 : rangeOk 0 10000 (sanNum el "x" 24 0 10000) = true :=
        sanNum_range (by norm_num) hx
      have r2 : rangeOk 0 10000 (sanNum el "y" 24 0 10000) = true :=
        sanNum_range (by norm_num) hy
      have r3 : rangeOk 40 10000 (sanNum el "w" 200 40 10000) = true :=
        sanNum_range (by norm_num) hw
      have r4 : rangeOk 30 10000 (sanNum el "h" 80 30 10000) = true :=
        sanNum_range (by norm_num) hh
      have r5 : rangeOk 8 160 (sanNum el "fontSize" 20 8 160) = true :=
        sanNum_range (by norm_num) hf
      have r6 : rangeOk 0 64 (sanNum el "radius"
          (if subtypeOf (jget el "subtype") = "speech" then 16 else 8)
          0 64) = true :=
        sanNum_range (by norm_num) hrd
      have r7 : rangeOk 100 900 (sanNum el "weight"
          (if subtypeOf (jget el "subtype") = "sfx" then 800 else 600)
          100 900) = true :=
        sanNum_range (by norm_num) hwt
      simp [elemInRange, textInRange, r1, r2, r3, r4, r5, r6, r7]

/-- Witness for C3 at the empty text input. -/
theorem C3_clamped_ranges_witness :
    numFieldsOk (.obj [("type", .str "text")]) = true ∧
    elemInRange (Element.text ⟨"w", "speech", "", .val 24, .val 24, .val 200,
      .val 80, .val 20, .str "#111827", .str "#ffffffcc", .num (.val 0),
      .num (.val 1), "left", .val 16, .val 600⟩) = true :=
  ⟨by decide, C3_clamped_ranges.1 (.obj [("type", .str "text")])
    ⟨fun _ => "w", 0⟩
    (.text ⟨"w", "speech", "", .val 24, .val 24, .val 200, .val 80, .val 20,
      .str "#111827", .str "#ffffffcc", .num (.val 0), .num (.val 1), "left",
      .val 16, .val 600⟩, ⟨fun _ => "w", 1⟩) (by decide) (by rfl)⟩

/-- Claim C3 counterexample: an `x` field holding an object coerces to
`NaN`; `clamp` propagates it, so the sanitized `x` is `NaN`, which lies in
no documented range — sanitization does not keep every NaN-like input in
range. -/
theorem C3_counterexample :
    (sanitizeElement ⟨fun _ => "c", 0⟩ (.obj [("x", .obj [])])).map
      (fun r => r.1.xOf) = .ok .nan ∧
    rangeOk 0 10000 .nan = false :=
  ⟨rfl, rfl⟩

/-- A panel whose elements are all within the documented ranges. -/
def panelInRange (pan : Panel) : Bool := pan.elements.all elemInRange

theorem all_mapIdxFrom_of_all {α : Type} (p : α → Bool) (f : ℕ → α → α)
    (hf : ∀ i a, p a = true → p (f i a) = true) :
    ∀ (l : List α) (k : ℕ),
      l.all p = true → (mapIdxFrom f k l).all p = true := by
  intro l
  induction l with
  | nil => intro k _; simp [mapIdxFrom]
  | cons a t ih =>
      intro k h
      rw [List.all_cons, Bool.and_eq_true] at h
      rw [mapIdxFrom, List.all_cons, Bool.and_eq_true]
      exact ⟨hf k a h.1, ih (k + 1) h.2⟩

theorem all_filter_of_all {α : Type} (p q : α → Bool) (l : List α)
    (h : l.all p = true) : (l.filter q).all p = true := by
  simp only [List.all_eq_true] at h ⊢
  intro a ha
  exact h a (List.mem_of_mem_filter ha)

/-- Claim C4 (amended): numeric-range clamping is not re-established at
mutation boundaries.  `removeElement` trivially preserves the documented
ranges, but the patch-based mutations commit unclamped values: an
ArrowLeft nudge commits exactly `x := el.x + (-step)` (and `y := el.y + 0`)
with no clamping, so a document whose fields are all in range can leave
range after a single keyboard nudge (see the counterexample at `x = 0`). -/
theorem C4_mutations_not_clamped :
    (∀ (pg : Page) (i : ℕ) (elId : String),
        pageInRange pg = true → pageInRange (removeElement pg i elId) = true) ∧
    (∀ (pg : Page) (sel : Selection) (elId : String) (el : Element)
        (shift : Bool), sel.elId = some elId →
        findEl pg sel.panelIdx elId = some el →
        onKey pg sel "ArrowLeft" shift =
          mutateElement pg sel.panelIdx elId
            { x := some (jaddN el.xOf (.val (-(if shift then 10 else 1))))
              y := some (jaddN el.yOf (.val 0)) }) := by
  constructor
  · intro pg i elId h
    simp only [pageInRange, removeElement] at h ⊢
    refine all_mapIdxFrom_of_all _ _ (fun j pan hp => ?_) pg.panels 0 h
    by_cases hj : j = i
    · simp only [hj, if_pos rfl]
      exact all_filter_of_all elemInRange _ pan.elements hp
    · simp only [if_neg hj]
      exact hp
  · intro pg sel elId el shift hsel hfind
    simp [onKey, hsel, hfind, nudgePatch, arrowDx, arrowDy]

/-- A one-panel page holding a single speech element sitting at `x = 0`. -/
def c4Page : Page :=
  { layout := .str "4"
    panels := [{ id := .str "p", bg := .str "#ffffff"
                 elements := [.text ⟨"e", "speech", "hi", .val 0, .val 24,
                   .val 200, .val 80, .val 20, .str "#111827",
                   .str "#ffffffcc", .num (.val 0), .num (.val 1), "left",
                   .val 16, .val 600⟩] }] }

/-- Witness for C4: removing the element of the concrete in-range page
keeps the page in range. -/
theorem C4_mutations_not_clamped_witness :
    pageInRange c4Page = true ∧
    pageInRange (removeElement c4Page 0 "e") = true :=
  ⟨by decide, C4_mutations_not_clamped.1 c4Page 0 "e" (by decide)⟩

/-- Claim C4 counterexample: `c4Page` is entirely within the documented
ranges, yet one unmodified ArrowLeft nudge on its selected element drives
`x` to `-1`, outside `[0, 10000]` — the nudge commits without clamping. -/
theorem C4_counterexample :
    pageInRange c4Page = true ∧
    pageInRange (onKey c4Page ⟨0, some "e"⟩ "ArrowLeft" false) = false := by
  constructor
  · decide
  · simp [c4Page, onKey, findEl, mutateElement, nudgePatch, arrowDx,
      arrowDy, applyPatch, applyPatchText, pageInRange, panelInRange,
      elemInRange, textInRange, rangeOk, mapIdxFrom, jaddN, Element.idOf,
      Element.xOf, Element.yOf]

/-- The `n` fresh empty white panels the pad loop appends, ids drawn from
position `k` of the stream. -/
def freshPanels (ids : ℕ → String) : ℕ → ℕ → List Panel
  | _, 0 => []
  | k, n + 1 => freshPanel (ids k) :: freshPanels ids (k + 1) n

theorem freshPanels_length (ids : ℕ → String) :
    ∀ (n k : ℕ), (freshPanels ids k n).length = n := by
  intro n
  induction n with
  | zero => intro k; rfl
  | succ m ih => intro k; simp [freshPanels, ih (k + 1)]

theorem padPanels_eq (ids : ℕ → String) :
    ∀ (n k : ℕ) (ps : List Panel),
      padPanels ⟨ids, k⟩ n ps = (ps ++ freshPanels ids k n, ⟨ids, k + n⟩) := by
  intro n
  induction n with
  | zero => intro k ps; simp [padPanels, freshPanels]
  | succ m ih =>
      intro k ps
      rw [padPanels]
      show padPanels ⟨ids, k + 1⟩ m (ps ++ [freshPanel (ids k)]) = _
      rw [ih (k + 1) (ps ++ [freshPanel (ids k)])]
      simp [freshPanels]
      omega

/-- Claim C5: whenever the layout is one of the recognized keys, the sync
effect resizes the panels to exactly `LAYOUTS[layout].panels`: the first
`min need length` panels are kept identical (same panel value, not
recreated) and the tail is freshly constructed empty white panels with
fresh ids; consequently switching `'4' → '1' → '4'` keeps panel 0
unchanged and recreates panels 1–3 empty. -/
theorem C5_layout_sync :
    (∀ (pg : Page) (s : Supply) (k : String) (need : ℕ),
        pg.layout = .str k → layoutPanelCount k = some need →
        (syncPanelCount s pg).1 =
          { pg with panels := (pg.panels.take need ++
              freshPanels s.ids s.next
                (need - (pg.panels.take need).length)) }) ∧
    (∀ (pg : Page) (s : Supply) (k : String) (need : ℕ),
        pg.layout = .str k → layoutPanelCount k = some need →
        (syncPanelCount s pg).1.panels.length = need) ∧
    (∀ (pg : Page) (s : Supply) (k : String) (need i : ℕ),
        pg.layout = .str k → layoutPanelCount k = some need →
        i < need → i < pg.panels.length →
        (syncPanelCount s pg).1.panels[i]? = pg.panels[i]?) ∧
    (∀ (p0 p1 p2 p3 : Panel) (lay : JSVal) (s s' : Supply),
        (syncPanelCount s' (setLayout
            (syncPanelCount s (setLayout ⟨lay, [p0, p1, p2, p3]⟩ "1")).1
            "4")).1 =
          ⟨.str "4", [p0, freshPanel (s'.ids s'.next),
            freshPanel (s'.ids (s'.next + 1)),
            freshPanel (s'.ids (s'.next + 2))]⟩) := by
  have hmain : ∀ (pg : Page) (s : Supply) (k : String) (need : ℕ),
      pg.layout = .str k → layoutPanelCount k = some need →
      (syncPanelCount s pg).1 =
        { pg with panels := (pg.panels.take need ++
            freshPanels s.ids s.next
              (need - (pg.panels.take need).length)) } := by
    intro pg s k need hlay hcount
    obtain ⟨ids, next⟩ := s
    simp [syncPanelCount, hlay, toPropertyKey, jsToString, hcount,
      padPanels_eq ids]
  refine ⟨hmain, ?_, ?_, ?_⟩
  · intro pg s k need hlay hcount
    rw [hmain pg s k need hlay hcount]
    simp only [List.length_append, List.length_take, freshPanels_length]
    omega
  · intro pg s k need i hlay hcount hi hilen
    rw [hmain pg s k need hlay hcount]
    have h1 : i < (pg.panels.take need).length := by
      simp [List.length_take]
      omega
    show (List.take need pg.panels ++
        freshPanels s.ids s.next (need - (List.take need pg.panels).length))[i]? =
      pg.panels[i]?
    rw [List.getElem?_append_left h1, List.getElem?_take_of_lt hi]
  · intro p0 p1 p2 p3 lay s s'
    obtain ⟨ids, next⟩ := s
    obtain ⟨ids', next'⟩ := s'
    rfl

/-- Witness for C5: syncing an empty two-panel-layout page yields exactly
two panels. -/
theorem C5_layout_sync_witness :
    (syncPanelCount ⟨fun n => Nat.repr n, 0⟩
      ⟨.str "2h", []⟩).1.panels.length = 2 :=
  C5_layout_sync.2.1 ⟨.str "2h", []⟩ ⟨fun n => Nat.repr n, 0⟩ "2h" 2 rfl rfl

/-- Claim C6 (amended): for every string layout value, loading keeps the
value exactly when the JS `in` operator finds it on the `LAYOUTS` object —
that is, when it is one of the four own keys `'1','2h','2v','4'` or an
inherited `Object.prototype` property name such as `"toString"`; every
string outside that larger set is replaced by `'4'`. -/
theorem C6_layout_normalization (s : Supply) (lay : String) :
    loadJSON s (.obj [("layout", .str lay), ("panels", .arr [])]) =
      .ok ⟨if inLayoutsObj lay then .str lay else .str "4", []⟩ := by
  simp only [loadJSON, jget, truthy, sanitizePanels, normLayout,
    toPropertyKey, jsToString]
  rfl

/-- Claim C6 counterexample: the string `"toString"` is not one of the
recognized layout keys, yet `'toString' in LAYOUTS` is true (inherited
from `Object.prototype`), so loading keeps `layout: "toString"` instead of
forcing `'4'`. -/
theorem C6_counterexample :
    loadJSON ⟨fun n => Nat.repr n, 0⟩
        (.obj [("layout", .str "toString"), ("panels", .arr [])]) =
      .ok ⟨.str "toString", []⟩ ∧
    ("toString" ∈ layoutKeys) = False :=
  ⟨rfl, by simp [layoutKeys]⟩

/-- Claim C7: the persisted export counter is read as
`Number(stored || '0')`, incremented by exactly 1 and re-stored only when
the renderer succeeds (and the file download fires, second component
`true`); a renderer failure leaves the stored value untouched and
downloads nothing. -/
theorem C7_export_counter :
    (∀ (n : ℚ) (stored url : String), strToNum stored = .val n →
        exportPNG (.ok url) (some stored) =
          (some (numToString (.val (n + 1))), true)) ∧
    (∀ store : Option String, exportPNG (.error ()) store = (store, false)) := by
  constructor
  · intro n stored url h
    by_cases he : stored = ""
    · subst he
      have h0 : JNum.val (0 : ℚ) = .val n := by
        rw [← h]
        rfl
      have hn : n = 0 := by
        injection h0 with h0'
        exact h0'.symm
      subst hn
      have h1 : strToNum "0" = JNum.val 0 := by decide
      simp [exportPNG, jor, truthy, toNumber, h1, jaddN]
    · simp [exportPNG, jor, truthy, he, toNumber, h, jaddN]
  · intro store
    rfl

/-- Witness for C7: a stored counter of `"41"` becomes `"42"` on success
and stays `"41"` (with no download) on failure. -/
theorem C7_export_counter_witness :
    strToNum "41" = .val 41 ∧
    exportPNG (.ok "data:img") (some "41") = (some "42", true) ∧
    exportPNG (.error ()) (some "41") = (some "41", false) := by
  refine ⟨by decide, ?_, C7_export_counter.2 (some "41")⟩
  have h := C7_export_counter.1 41 "41" "data:img" (by decide)
  rw [h]
  norm_num
  decide

/-- Claim C8: each pointermove of an active resize gesture with anchor
rect `(w0, h0)` and pointer delta `(dx, dy)` commits exactly
`w = max(20, w0 + dx)` and `h = max(20, h0 + dy)` — floored at 20, no
maximum, no aspect-ratio coupling (the patch touches only `w` and `h`);
in particular from `w0 = 100, h0 = 50` and `dx = dy = -200` the committed
size is `w = 20, h = 20`. -/
theorem C8_resize_floor :
    (∀ (id : String) (sx sy x0 y0 w0 h0 dx dy : ℚ),
        dragPatch ⟨id, .resize, .val sx, .val sy,
            ⟨.val x0, .val y0, .val w0, .val h0⟩⟩
          (.val (sx + dx)) (.val (sy + dy)) =
          { w := some (jmax (.val 20) (.val (w0 + dx)))
            h := some (jmax (.val 20) (.val (h0 + dy))) }) ∧
    dragPatch ⟨"e", .resize, .val 0, .val 0,
        ⟨.val 24, .val 24, .val 100, .val 50⟩⟩
      (.val (-200)) (.val (-200)) =
      { w := some (.val 20), h := some (.val 20) } := by
  constructor
  · intro id sx sy x0 y0 w0 h0 dx dy
    simp only [dragPatch, jsubN, jaddN, jnegN]
    have hw : w0 + (sx + dx + -sx) = w0 + dx := by ring
    have hh : h0 + (sy + dy + -sy) = h0 + dy := by ring
    rw [hw, hh]
  · simp only [dragPatch, jsubN, jaddN, jnegN, jmax]
    norm_num

/-- Claim C9 (amended): for every selected element whose `z` is a number
`q`, pressing `]` commits exactly `{ z: q + 1 }` and pressing `[` commits
exactly `{ z: max(0, q - 1) }` — so `[` can never make `z` negative and
leaves `z = 0` at `0` — and a `z`-only patch changes no other field of the
element.  (The numeric restriction is needed: a string `z` loaded through
the sanitizer's passthrough makes the `]` handler's `+` concatenate.) -/
theorem C9_z_bracket_keys :
    (∀ (pg : Page) (sel : Selection) (elId : String) (el : Element) (q : ℚ)
        (shift : Bool), sel.elId = some elId →
        findEl pg sel.panelIdx elId = some el →
        el.zOf = .num (.val q) →
        onKey pg sel "]" shift =
          mutateElement pg sel.panelIdx elId
            { z := some (.num (.val (q + 1))) } ∧
        onKey pg sel "[" shift =
          mutateElement pg sel.panelIdx elId
            { z := some (.num (.val (max 0 (q - 1)))) } ∧
        (0 : ℚ) ≤ max 0 (q - 1) ∧
        (q = 0 → max (0 : ℚ) (q - 1) = 0)) ∧
    (∀ (t : TextEl) (v : JSVal),
        applyPatch (.text t) { z := some v } = .text { t with z := v }) ∧
    (∀ (i : ImageEl) (v : JSVal),
        applyPatch (.image i) { z := some v } = .image { i with z := v }) := by
  refine ⟨?_, fun t v => rfl, fun i v => rfl⟩
  intro pg sel elId el q shift hsel hfind hz
  refine ⟨?_, ?_, le_max_left 0 _, ?_⟩
  · simp [onKey, hsel, hfind, hz, jcoalesce_num, jsAdd, toNumber, jaddN]
  · simp [onKey, hsel, hfind, hz, jcoalesce_num, jsubN, jaddN, jnegN,
      toNumber, jmax, sub_eq_add_neg]
  · intro hq
    subst hq
    norm_num

/-- A one-panel page holding a single speech element with `z = 5`. -/
def c9Page : Page :=
  { layout := .str "4"
    panels := [{ id := .str "p", bg := .str "#ffffff"
                 elements := [.text ⟨"e", "speech", "hi", .val 24, .val 24,
                   .val 200, .val 80, .val 20, .str "#111827",
                   .str "#ffffffcc", .num (.val 0), .num (.val 5), "left",
                   .val 16, .val 600⟩] }] }

/-- Witness for C9 at the concrete page with `z = 5`. -/
theorem C9_z_bracket_keys_witness :
    onKey c9Page ⟨0, some "e"⟩ "]" false =
      mutateElement c9Page 0 "e"
        { z := some (.num (.val ((5 : ℚ) + 1))) } ∧
    onKey c9Page ⟨0, some "e"⟩ "[" false =
      mutateElement c9Page 0 "e"
        { z := some (.num (.val (max 0 ((5 : ℚ) - 1)))) } := by
  have h := C9_z_bracket_keys.1 c9Page ⟨0, some "e"⟩ "e"
    (.text ⟨"e", "speech", "hi", .val 24, .val 24, .val 200, .val 80,
      .val 20, .str "#111827", .str "#ffffffcc", .num (.val 0),
      .num (.val 5), "left", .val 16, .val 600⟩) 5 false rfl (by rfl) rfl
  exact ⟨h.1, h.2.1⟩

/-- A one-panel page holding a single speech element whose `z` is the
string `"a"` (reachable by loading a document with `z: "a"`, which the
sanitizer passes through verbatim). -/
def c9StrPage : Page :=
  { layout := .str "4"
    panels := [{ id := .str "p", bg := .str "#ffffff"
                 elements := [.text ⟨"e", "speech", "hi", .val 24, .val 24,
                   .val 200, .val 80, .val 20, .str "#111827",
                   .str "#ffffffcc", .num (.val 0), .str "a", "left",
                   .val 16, .val 600⟩] }] }

/-- Claim C9 counterexample: on a selected element whose `z` is the string
`"a"`, pressing `]` commits `z = "a1"` — the JS `+` in
`{ z: (el.z ?? 0) + 1 }` concatenates instead of incrementing by 1, so
`]` does not increment `z` by exactly 1 for every selected element. -/
theorem C9_counterexample :
    findEl (onKey c9StrPage ⟨0, some "e"⟩ "]" false) 0 "e" =
      some (.text ⟨"e", "speech", "hi", .val 24, .val 24, .val 200, .val 80,
        .val 20, .str "#111827", .str "#ffffffcc", .num (.val 0),
        .str "a1", "left", .val 16, .val 600⟩) ∧
    JSVal.str "a1" ≠ .num (jaddN (toNumber (.str "a")) (.val 1)) :=
  ⟨rfl, fun h => JSVal.noConfusion h⟩

theorem jcoalesce_of_nullish {v d : JSVal} (h : nullish v = true) :
    jcoalesce v d = d := by
  simp [jcoalesce, h]

/-- Claim C10 (amended): the sanitizer neither clamps nor validates `z`
and `rotate`: every present non-nullish value — negative, fractional,
arbitrarily large, even non-numeric — is carried into the sanitized
element unchanged (so a negative `z` can enter via load even though the
interactive `[` key floors `z` at 0); an absent or `null` value is
defaulted (`z` to 0 for images and 1 for text, `rotate` to 0), because the
`??` operator treats `null` like absence. -/
theorem C10_z_rotate_passthrough :
    (∀ (el : JSVal) (s : Supply) (r : Element × Supply),
        sanitizeElement s el = .ok r → nullish (jget el "z") = false →
        r.1.zOf = jget el "z") ∧
    (∀ (el : JSVal) (s : Supply) (r : Element × Supply),
        sanitizeElement s el = .ok r → nullish (jget el "rotate") = false →
        r.1.rotateOf = jget el "rotate") ∧
    (∀ (el : JSVal) (s : Supply) (r : Element × Supply),
        sanitizeElement s el = .ok r → nullish (jget el "z") = true →
        r.1.zOf = (match r.1 with
          | .image _ => .num (.val 0)
          | .text _ => .num (.val 1))) ∧
    (∀ (el : JSVal) (s : Supply) (r : Element × Supply),
        sanitizeElement s el = .ok r → nullish (jget el "rotate") = true →
        r.1.rotateOf = .num (.val 0)) := by
  refine ⟨?_, ?_, ?_, ?_⟩ <;>
    (intro el s r hs hn
     unfold sanitizeElement at hs
     by_cases hne : nullish el = true
     · simp [hne] at hs
     · simp only [hne, Bool.false_eq_true, if_false] at hs
       by_cases ht : isStrEq (jget el "type") "image" = true
       · rw [if_pos ht] at hs
         cases hs
         simp [Element.zOf, Element.rotateOf, jcoalesce, hn]
       · rw [if_neg ht] at hs
         cases hs
         simp [Element.zOf, Element.rotateOf, jcoalesce, hn])

/-- Witness for C10: a loaded `z` of `-3` (present, non-null) survives
sanitization unchanged. -/
theorem C10_z_rotate_passthrough_witness :
    Element.zOf (.text ⟨"w", "speech", "", .val 24, .val 24, .val 200,
        .val 80, .val 20, .str "#111827", .str "#ffffffcc", .num (.val 0),
        .num (.val (-3)), "left", .val 16, .val 600⟩) =
      jget (.obj [("z", .num (.val (-3)))]) "z" :=
  C10_z_rotate_passthrough.1 (.obj [("z", .num (.val (-3)))])
    ⟨fun _ => "w", 0⟩
    (.text ⟨"w", "speech", "", .val 24, .val 24, .val 200, .val 80, .val 20,
      .str "#111827", .str "#ffffffcc", .num (.val 0), .num (.val (-3)),
      "left", .val 16, .val 600⟩, ⟨fun _ => "w", 1⟩) (by rfl) (by rfl)

/-- Claim C10 counterexample: a *present* `z` holding JSON `null` is not
carried unchanged — `el.z ?? 1` treats `null` like absence and defaults
the text element's `z` to 1. -/
theorem C10_counterexample :
    (sanitizeElement ⟨fun _ => "c", 0⟩
        (.obj [("type", .str "text"), ("z", .null)])).map
      (fun r => r.1.zOf) = .ok (.num (.val 1)) ∧
    jget (.obj [("type", .str "text"), ("z", .null)]) "z" = .null ∧
    (JSVal.null ≠ .num (.val 1)) :=
  ⟨rfl, rfl, fun h => JSVal.noConfusion h⟩

end Comicks
